import Mathlib

/-!
Verification development for the tracker repository (src/app.py, src/cli.py).

Modelling conventions, shared by all definitions below:

* Calendar dates in streak computations are encoded as natural-number
  offsets from the epoch `START_DATE = 2025-08-26` (src/app.py line 29):
  offset `0` is the epoch itself, offset `n` is `START_DATE + n` days.
  Thus "today on or after the epoch" is exactly `n : Nat`, and the guard
  `if days_since_start >= 0` of src/app.py line 139 is always satisfied.
* A stored day record's status is one of the two strings
  "successful" / "unsuccessful" (the only values ever written by
  `toggle_day` and by cli.py's `mark_day`); absence of a record means
  unmarked.  We model the status by the two-valued enum `DayStatus` and a
  snapshot by a partial map to it, `none` meaning unmarked.
* Timestamps are integers (seconds); the cache TTL is 30 (src/app.py
  line 37).
* The DynamoDB calls are modelled by an explicit `fetch` argument
  (`Except Unit Snap`): `.ok m` is a successful `table.scan()` returning
  the mapping `m`, `.error ()` is any raised exception.
-/

namespace Tracker

/-- Status of a marked day: the wire strings "successful"/"unsuccessful".
Absence of a record (= unmarked) is represented by `Option.none`. -/
inductive DayStatus where
  | successful
  | unsuccessful
  deriving DecidableEq, Repr

/-- A snapshot of all marked days, as held by the cache: an association
list from day offset (days since the epoch 2025-08-26) to status.
Models the Python dict `_marked_days_cache`. -/
abbrev Snap : Type := List (Nat × DayStatus)

/-- Dict lookup in a snapshot: `date_str in marked_days` plus the value
read `marked_days[date_str]`. -/
def lookupSnap (s : Snap) (k : Nat) : Option DayStatus :=
  (List.find? (fun r => r.1 = k) s).map (fun r => r.2)

/-- First backward loop of `get_streak` (src/app.py lines 155-171): scan
from day `n` down to the epoch; a successful day is returned, an
unsuccessful day aborts the search (`most_recent_success = None`), an
unmarked day is skipped. -/
def findMostRecentSuccess (marked : Nat → Option DayStatus) : Nat → Option Nat
  | 0 =>
    match marked 0 with
    | some DayStatus.successful => some 0
    | some DayStatus.unsuccessful => none
    | none => none
  | k + 1 =>
    match marked (k + 1) with
    | some DayStatus.successful => some (k + 1)
    | some DayStatus.unsuccessful => none
    | none => findMostRecentSuccess marked k

/-- Second backward loop of `get_streak` (src/app.py lines 173-191):
starting at the most recent successful day, count consecutive successful
days going backward; an unsuccessful day breaks the streak, an unmarked
day ends the count, and the loop never passes the epoch (offset 0). -/
def countStreakFrom (marked : Nat → Option DayStatus) : Nat → Nat
  | 0 =>
    match marked 0 with
    | some DayStatus.successful => 1
    | _ => 0
  | k + 1 =>
    match marked (k + 1) with
    | some DayStatus.successful => 1 + countStreakFrom marked k
    | _ => 0

/-- The `current_streak` computation of `get_streak`
(src/app.py lines 135-191), for `today = epoch + n`. -/
def current_streak (marked : Nat → Option DayStatus) (n : Nat) : Nat :=
  match findMostRecentSuccess marked n with
  | none => 0
  | some m => countStreakFrom marked m

/-! ### Spec-side canonical streak (from the words of spec.md §4.2)

These definitions are declarative renderings of the specification text,
for comparison with the code-derived `current_streak`.

The most recent success that the backward search can report is the unique
day `k ≤ n` that is successful and has only unmarked days strictly above
it (any unsuccessful day above `k` would abort the search before reaching
`k`, and any successful day above `k` would itself be more recent). -/

/-- Days `k ≤ n` qualifying as "most recent successful date found by the
backward scan" per spec.md §4.2 step 1.  This set has at most one
element. -/
def specMostRecentSet (marked : Nat → Option DayStatus) (n : Nat) : Finset Nat :=
  (Finset.range (n + 1)).filter
    (fun k => marked k = some DayStatus.successful ∧
      ∀ j ∈ Finset.Ioc k n, marked j = Option.none)

/-- The length of the run of consecutive successful days ending at `m`
(spec.md §4.2 step 3), counted declaratively: the number of possible
starting points `k ≤ m` from which every day of `[k, m]` is successful. -/
def specRunCount (marked : Nat → Option DayStatus) (m : Nat) : Nat :=
  ((Finset.range (m + 1)).filter
    (fun k => ∀ i ∈ Finset.Icc k m, marked i = some DayStatus.successful)).card

/-- Canonical backward-scan streak value per spec.md §4.2: zero when the
search finds no successful day, otherwise the consecutive-success run
ending at the (unique) most recent success. -/
def specStreak (marked : Nat → Option DayStatus) (n : Nat) : Nat :=
  Finset.sum (specMostRecentSet marked n) (fun m => specRunCount marked m)

/-! ### Equivalence of the code's streak loops with the canonical spec -/

theorem countStreakFrom_succ_eq (marked : Nat → Option DayStatus) (k : Nat) :
    countStreakFrom marked (k + 1) =
      match marked (k + 1) with
      | some DayStatus.successful => 1 + countStreakFrom marked k
      | _ => 0 := rfl

theorem findMostRecentSuccess_eq_some_iff (marked : Nat → Option DayStatus) :
    ∀ n k, findMostRecentSuccess marked n = some k ↔
      (k ≤ n ∧ marked k = some DayStatus.successful ∧
        ∀ j, k < j → j ≤ n → marked j = Option.none) := by
  intro n
  induction n with
  | zero =>
    intro k
    unfold findMostRecentSuccess
    rcases h : marked 0 with _ | st
    · simp only [h]
      constructor
      · intro hk; cases hk
      · rintro ⟨hk, hs, _⟩
        interval_cases k
        rw [h] at hs; cases hs
    · cases st <;> simp only [h, Option.some.injEq]
      · constructor
        · rintro rfl
          exact ⟨le_refl 0, h, fun j hj1 hj2 => absurd (lt_of_lt_of_le hj1 hj2) (lt_irrefl _)⟩
        · rintro ⟨hk, _, _⟩
          omega
      · constructor
        · intro hk; cases hk
        · rintro ⟨hk, hs, _⟩
          interval_cases k
          rw [h] at hs; cases hs
  | succ m ih =>
    intro k
    unfold findMostRecentSuccess
    rcases h : marked (m + 1) with _ | st
    · simp only [h]
      rw [ih k]
      constructor
      · rintro ⟨hk, hs, hall⟩
        refine ⟨by omega, hs, fun j hj1 hj2 => ?_⟩
        rcases Nat.lt_or_ge j (m + 1) with hj | hj
        · exact hall j hj1 (by omega)
        · have : j = m + 1 := by omega
          rw [this, h]
      · rintro ⟨hk, hs, hall⟩
        have hkm : k ≤ m := by
          rcases Nat.lt_or_ge k (m + 1) with hk' | hk'
          · omega
          · have : k = m + 1 := by omega
            rw [this, h] at hs; cases hs
        exact ⟨hkm, hs, fun j hj1 hj2 => hall j hj1 (by omega)⟩
    · cases st <;> simp only [h, Option.some.injEq]
      · constructor
        · rintro rfl
          exact ⟨le_refl _, h, fun j hj1 hj2 => by omega⟩
        · rintro ⟨hk, hs, hall⟩
          by_contra hne
          have hkm : k < m + 1 := by omega
          have := hall (m + 1) hkm (le_refl _)
          rw [h] at this; cases this
      · constructor
        · intro hk; cases hk
        · rintro ⟨hk, hs, hall⟩
          rcases Nat.lt_or_ge k (m + 1) with hk' | hk'
          · have := hall (m + 1) hk' (le_refl _)
            rw [h] at this; cases this
          · have : k = m + 1 := by omega
            rw [this, h] at hs; cases hs

theorem specMostRecentSet_eq (marked : Nat → Option DayStatus) (n : Nat) :
    specMostRecentSet marked n =
      (findMostRecentSuccess marked n).elim ∅ (fun m => {m}) := by
  ext k
  simp only [specMostRecentSet, Finset.mem_filter, Finset.mem_range, Finset.mem_Ioc]
  rcases h : findMostRecentSuccess marked n with _ | m
  · simp only [Option.elim, Finset.not_mem_empty, iff_false]
    rintro ⟨hk, hs, hall⟩
    have : findMostRecentSuccess marked n = some k :=
      (findMostRecentSuccess_eq_some_iff marked n k).mpr
        ⟨by omega, hs, fun j hj1 hj2 => hall j ⟨hj1, hj2⟩⟩
    rw [h] at this; cases this
  · simp only [Option.elim, Finset.mem_singleton]
    constructor
    · rintro ⟨hk, hs, hall⟩
      have : findMostRecentSuccess marked n = some k :=
        (findMostRecentSuccess_eq_some_iff marked n k).mpr
          ⟨by omega, hs, fun j hj1 hj2 => hall j ⟨hj1, hj2⟩⟩
      rw [h] at this
      exact (Option.some.injEq _ _ ▸ this).symm
    · rintro rfl
      obtain ⟨hk, hs, hall⟩ := (findMostRecentSuccess_eq_some_iff marked n k).mp h
      exact ⟨by omega, hs, fun j hj => hall j hj.1 hj.2⟩

theorem countStreakFrom_eq_specRunCount (marked : Nat → Option DayStatus) :
    ∀ m, countStreakFrom marked m = specRunCount marked m := by
  intro m
  induction m with
  | zero =>
    unfold countStreakFrom specRunCount
    rw [Finset.range_one, Finset.filter_singleton]
    cases h : marked 0 with
    | none =>
      have hnot : ¬ ∀ i ∈ Finset.Icc 0 0, marked i = some DayStatus.successful := by
        intro hc
        have := hc 0 (by simp)
        rw [h] at this
        exact Option.noConfusion this
      rw [if_neg hnot]
      simp
    | some st =>
      cases st with
      | successful =>
        have hyes : ∀ i ∈ Finset.Icc 0 0, marked i = some DayStatus.successful := by
          intro i hi
          simp only [Finset.mem_Icc] at hi
          have hi0 : i = 0 := by omega
          rw [hi0, h]
        rw [if_pos hyes]
        simp
      | unsuccessful =>
        have hnot : ¬ ∀ i ∈ Finset.Icc 0 0, marked i = some DayStatus.successful := by
          intro hc
          have := hc 0 (by simp)
          rw [h] at this
          simp at this
        rw [if_neg hnot]
        simp
  | succ j ih =>
    cases h : marked (j + 1) with
    | none =>
      have hz : countStreakFrom marked (j + 1) = 0 := by
        unfold countStreakFrom
        rw [h]
      rw [hz]
      symm
      unfold specRunCount
      rw [Finset.card_eq_zero]
      ext k
      simp only [Finset.mem_filter, Finset.mem_range, Finset.mem_Icc, Finset.not_mem_empty,
        iff_false, not_and]
      intro hk hall
      have := hall (j + 1) (by omega)
      rw [h] at this
      exact Option.noConfusion this
    | some st =>
      cases st with
      | successful =>
        have hs : countStreakFrom marked (j + 1) = 1 + countStreakFrom marked j := by
          rw [countStreakFrom_succ_eq, h]
        rw [hs, ih]
        unfold specRunCount
        nth_rewrite 2 [Finset.range_succ]
        rw [Finset.filter_insert]
        have hyes : ∀ i ∈ Finset.Icc (j + 1) (j + 1), marked i = some DayStatus.successful := by
          intro i hi
          simp only [Finset.mem_Icc] at hi
          have hij : i = j + 1 := by omega
          rw [hij, h]
        rw [if_pos hyes]
        have hnm : j + 1 ∉ Finset.filter
            (fun k => ∀ i ∈ Finset.Icc k (j + 1), marked i = some DayStatus.successful)
            (Finset.range (j + 1)) := by
          simp only [Finset.mem_filter, Finset.mem_range]
          rintro ⟨hk, _⟩
          omega
        rw [Finset.card_insert_of_not_mem hnm]
        have hcongr : Finset.filter
            (fun k => ∀ i ∈ Finset.Icc k (j + 1), marked i = some DayStatus.successful)
            (Finset.range (j + 1)) = Finset.filter
            (fun k => ∀ i ∈ Finset.Icc k j, marked i = some DayStatus.successful)
            (Finset.range (j + 1)) := by
          apply Finset.filter_congr
          intro x hx
          simp only [Finset.mem_range] at hx
          simp only [Finset.mem_Icc]
          constructor
          · intro hall i hi
            exact hall i (by omega)
          · intro hall i hi
            rcases Nat.lt_or_ge i (j + 1) with hi' | hi'
            · exact hall i (by omega)
            · have hij : i = j + 1 := by omega
              rw [hij, h]
        rw [hcongr]
        omega
      | unsuccessful =>
        have hz : countStreakFrom marked (j + 1) = 0 := by
          unfold countStreakFrom
          rw [h]
        rw [hz]
        symm
        unfold specRunCount
        rw [Finset.card_eq_zero]
        ext k
        simp only [Finset.mem_filter, Finset.mem_range, Finset.mem_Icc, Finset.not_mem_empty,
          iff_false, not_and]
        intro hk hall
        have := hall (j + 1) (by omega)
        rw [h] at this
        simp at this

/-- C1: for every snapshot and every today on or after the epoch
(today = epoch + n), the streak computed by the `get_streak` code
(src/app.py lines 135-191) equals the canonical backward-scan value of
spec.md §4.2: unmarked dates are skipped while searching for the most
recent success, the first unsuccessful date aborts the search with
streak 0, and from a found success the streak counts consecutive
successful dates backward, breaking at an unsuccessful date and stopping
(count preserved) at an unmarked gap, never leaving [epoch, today]. -/
theorem current_streak_eq_specStreak (marked : Nat → Option DayStatus) (n : Nat) :
    current_streak marked n = specStreak marked n := by
  unfold current_streak specStreak
  rw [specMostRecentSet_eq]
  rcases h : findMostRecentSuccess marked n with _ | m
  · simp
  · simp only [Option.elim, Finset.sum_singleton]
    exact countStreakFrom_eq_specRunCount marked m

theorem countStreakFrom_le (marked : Nat → Option DayStatus) :
    ∀ m, countStreakFrom marked m ≤ m + 1 := by
  intro m
  induction m with
  | zero =>
    cases h : marked 0 with
    | none =>
      have hz : countStreakFrom marked 0 = 0 := by
        unfold countStreakFrom
        rw [h]
      omega
    | some st =>
      cases st with
      | successful =>
        have hz : countStreakFrom marked 0 = 1 := by
          unfold countStreakFrom
          rw [h]
        omega
      | unsuccessful =>
        have hz : countStreakFrom marked 0 = 0 := by
          unfold countStreakFrom
          rw [h]
        omega
  | succ j ih =>
    cases h : marked (j + 1) with
    | none =>
      have hz : countStreakFrom marked (j + 1) = 0 := by
        rw [countStreakFrom_succ_eq, h]
      omega
    | some st =>
      cases st with
      | successful =>
        have hz : countStreakFrom marked (j + 1) = 1 + countStreakFrom marked j := by
          rw [countStreakFrom_succ_eq, h]
        omega
      | unsuccessful =>
        have hz : countStreakFrom marked (j + 1) = 0 := by
          rw [countStreakFrom_succ_eq, h]
        omega

theorem findMostRecentSuccess_succ_eq (marked : Nat → Option DayStatus) (k : Nat) :
    findMostRecentSuccess marked (k + 1) =
      match marked (k + 1) with
      | some DayStatus.successful => some (k + 1)
      | some DayStatus.unsuccessful => none
      | none => findMostRecentSuccess marked k := rfl

theorem findMostRecentSuccess_eq_none_of_all_none (marked : Nat → Option DayStatus)
    (hall : ∀ k, marked k = Option.none) : ∀ n, findMostRecentSuccess marked n = none := by
  intro n
  induction n with
  | zero =>
    unfold findMostRecentSuccess
    rw [hall 0]
  | succ k ih =>
    rw [findMostRecentSuccess_succ_eq, hall (k + 1)]
    exact ih

theorem current_streak_eq_zero_of_all_none (marked : Nat → Option DayStatus)
    (hall : ∀ k, marked k = Option.none) (n : Nat) : current_streak marked n = 0 := by
  unfold current_streak
  rw [findMostRecentSuccess_eq_none_of_all_none marked hall n]

/-- C7: for all snapshots and all dates `d = epoch + n` in the domain,
the derived current streak satisfies
`0 ≤ current_streak ∧ current_streak ≤ (d - epoch).days + 1 = n + 1`. -/
theorem current_streak_bounds (marked : Nat → Option DayStatus) (n : Nat) :
    0 ≤ current_streak marked n ∧ current_streak marked n ≤ n + 1 := by
  refine ⟨Nat.zero_le _, ?_⟩
  cases h : findMostRecentSuccess marked n with
  | none =>
    have hz : current_streak marked n = 0 := by
      unfold current_streak
      rw [h]
    omega
  | some m =>
    obtain ⟨hm, _, _⟩ := (findMostRecentSuccess_eq_some_iff marked n m).mp h
    have hz : current_streak marked n = countStreakFrom marked m := by
      unfold current_streak
      rw [h]
    have hle := countStreakFrom_le marked m
    omega

/-! ### Snapshot cache (src/app.py lines 35-63, 226-230)

The module globals `_marked_days_cache` and `_cache_timestamp` form the
cache state; `_cache_ttl = 30`.  `get_cached_marked_days` is embedded as
an explicit state-passing function whose third result records whether the
store was consulted (`table.scan()` executed).  A fetch outcome is passed
in as an `Except`: `.error ()` models the scan raising (backend
unreachable), in which case the code prints the error and returns `{}`
while leaving both globals untouched. -/

structure CacheState where
  cache : Snap
  tstamp : Int
  deriving DecidableEq, Repr

/-- TTL constant `_cache_ttl` (src/app.py line 37). -/
def cache_ttl : Int := 30

/-- Function `get_cached_marked_days` (src/app.py lines 40-63).  The cached value
is served only when the TTL has not elapsed AND the cached dict is
nonempty (Python truthiness of `_marked_days_cache`); otherwise the store
is fetched: on success the snapshot and timestamp are replaced, on
failure an empty dict is returned with the state unchanged. -/
def get_cached_marked_days (st : CacheState) (now : Int) (fetch : Except Unit Snap) :
    Snap × CacheState × Bool :=
  if now - st.tstamp < cache_ttl ∧ st.cache ≠ [] then
    (st.cache, st, false)
  else
    match fetch with
    | Except.ok items => (items, ⟨items, now⟩, true)
    | Except.error _ => ([], st, true)

/-- Function `invalidate_cache` (src/app.py lines 226-230): clears the dict and
resets the timestamp to 0. -/
def invalidate_cache : CacheState :=
  ⟨[], 0⟩

/-- The `/api/streak` read path (src/app.py lines 124-214): the streak is
derived from whatever snapshot the cache layer hands back. -/
def get_streak (st : CacheState) (now : Int) (fetch : Except Unit Snap) (n : Nat) : Nat :=
  current_streak (fun k => lookupSnap (get_cached_marked_days st now fetch).1 k) n

/-- C2 counterexample: with a previous nonempty snapshot stored (day 0
successful, captured at time 0) and the TTL expired at time 100, a failing
fetch makes `get_cached_marked_days` return the empty snapshot, not the
previous one. -/
theorem cache_failure_counterexample :
    (get_cached_marked_days ⟨[(0, DayStatus.successful)], 0⟩ 100 (Except.error ())).1 = [] ∧
      ([] : Snap) ≠ [(0, DayStatus.successful)] := by
  decide

/-- C2 amended: when `fetch_all` fails, `get_cached_marked_days` does not
raise (it is total) and returns the empty snapshot regardless of whether
a previous snapshot exists, leaving the stored state untouched; a failing
fetch can only be observed off the fast path, because within the TTL with
a nonempty stored snapshot the store is never consulted. -/
theorem cache_failure_returns_empty (st : CacheState) (now : Int) :
    (¬(now - st.tstamp < cache_ttl ∧ st.cache ≠ []) →
      get_cached_marked_days st now (Except.error ()) = ([], st, true)) ∧
    ((now - st.tstamp < cache_ttl ∧ st.cache ≠ []) →
      ∀ fetch, get_cached_marked_days st now fetch = (st.cache, st, false)) := by
  constructor
  · intro h
    unfold get_cached_marked_days
    rw [if_neg h]
  · intro h fetch
    unfold get_cached_marked_days
    rw [if_pos h]

theorem cache_failure_returns_empty_witness :
    get_cached_marked_days ⟨[(0, DayStatus.successful)], 0⟩ 100 (Except.error ()) =
        ([], ⟨[(0, DayStatus.successful)], 0⟩, true) ∧
      get_cached_marked_days ⟨[(0, DayStatus.successful)], 0⟩ 5 (Except.error ()) =
        ([(0, DayStatus.successful)], ⟨[(0, DayStatus.successful)], 0⟩, false) :=
  ⟨(cache_failure_returns_empty ⟨[(0, DayStatus.successful)], 0⟩ 100).1 (by decide),
    (cache_failure_returns_empty ⟨[(0, DayStatus.successful)], 0⟩ 5).2 (by decide) _⟩

/-- C4 counterexample: an empty snapshot is stored at time 0 (empty but
reachable store); a second `get` at time 1 - well within the 30-second
TTL - consults the store again (`true` flag) and returns the fresh fetch
result instead of the identical stored snapshot. -/
theorem cache_empty_snapshot_counterexample :
    (get_cached_marked_days ⟨[], 0⟩ 0 (Except.ok [])).2.1 = (⟨[], 0⟩ : CacheState) ∧
      (get_cached_marked_days ⟨[], 0⟩ 1 (Except.ok [(0, DayStatus.successful)])).2.2 = true ∧
      (get_cached_marked_days ⟨[], 0⟩ 1 (Except.ok [(0, DayStatus.successful)])).1 =
        [(0, DayStatus.successful)] := by
  decide

/-- C4 amended: a `get` within the 30-second TTL returns the identical
snapshot and timestamp without consulting the store provided the stored
snapshot is nonempty; an empty stored snapshot is never served from the
cache; and a `get` after `invalidate_cache` always performs a fresh
fetch, because invalidation clears the snapshot (making the cache-hit
condition false) and resets the capture time to 0. -/
theorem cache_ttl_contract (st : CacheState) (now : Int) (fetch : Except Unit Snap) :
    (now - st.tstamp < cache_ttl → st.cache ≠ [] →
      get_cached_marked_days st now fetch = (st.cache, st, false)) ∧
    (st.cache = [] → (get_cached_marked_days st now fetch).2.2 = true) ∧
    invalidate_cache = (⟨[], 0⟩ : CacheState) ∧
    (get_cached_marked_days invalidate_cache now fetch).2.2 = true := by
  refine ⟨?_, ?_, rfl, ?_⟩
  · intro h1 h2
    unfold get_cached_marked_days
    rw [if_pos ⟨h1, h2⟩]
  · intro hempty
    unfold get_cached_marked_days
    rw [if_neg (by simp [hempty])]
    cases fetch <;> rfl
  · unfold get_cached_marked_days invalidate_cache
    rw [if_neg (by simp)]
    cases fetch <;> rfl

theorem cache_ttl_contract_witness :
    get_cached_marked_days ⟨[(0, DayStatus.successful)], 0⟩ 5 (Except.ok []) =
        ([(0, DayStatus.successful)], ⟨[(0, DayStatus.successful)], 0⟩, false) ∧
      (get_cached_marked_days ⟨[], 2⟩ 5 (Except.ok [])).2.2 = true ∧
      (get_cached_marked_days invalidate_cache 5 (Except.ok [])).2.2 = true :=
  ⟨(cache_ttl_contract ⟨[(0, DayStatus.successful)], 0⟩ 5 (Except.ok [])).1
      (by decide) (by decide),
    (cache_ttl_contract ⟨[], 2⟩ 5 (Except.ok [])).2.1 rfl,
    (cache_ttl_contract ⟨[], 0⟩ 5 (Except.ok [])).2.2.2⟩

/-- C3 counterexample: with no records at all and `today = epoch + 5`
(`days_since_start = 5`), the backend-failure fallback path with no
last-known snapshot yields `current_streak = 0`, not
`max 0 days_since_start = 5`, and it is indistinguishable from the
normal empty-but-reachable path, which also yields 0. -/
theorem streak_fallback_counterexample :
    get_streak ⟨[], 0⟩ 1000 (Except.error ()) 5 = 0 ∧
      get_streak ⟨[], 0⟩ 1000 (Except.ok []) 5 = 0 ∧
      (0 : Nat) ≠ max 0 5 := by
  decide

/-- C3 amended: with no records at all, `get_streak` computes
`current_streak = 0` both under the backend-failure fallback path (no
last-known snapshot, fetch fails, empty mapping used) and under the
normal path (store reachable but empty); no `days_since_start`
approximation exists and the two paths are not distinguishable by the
streak value. -/
theorem streak_empty_both_paths (st : CacheState) (now : Int) (n : Nat)
    (h : st.cache = []) :
    get_streak st now (Except.error ()) n = 0 ∧
      get_streak st now (Except.ok []) n = 0 := by
  have hcond : ¬(now - st.tstamp < cache_ttl ∧ st.cache ≠ []) := by
    rintro ⟨_, hne⟩
    exact hne h
  have hsnap1 : (get_cached_marked_days st now (Except.error ())).1 = [] := by
    unfold get_cached_marked_days
    rw [if_neg hcond]
  have hsnap2 : (get_cached_marked_days st now (Except.ok [])).1 = [] := by
    unfold get_cached_marked_days
    rw [if_neg hcond]
  constructor
  · unfold get_streak
    rw [hsnap1]
    exact current_streak_eq_zero_of_all_none _ (fun k => rfl) n
  · unfold get_streak
    rw [hsnap2]
    exact current_streak_eq_zero_of_all_none _ (fun k => rfl) n

theorem streak_empty_both_paths_witness :
    get_streak ⟨[], 0⟩ 7 (Except.error ()) 3 = 0 ∧
      get_streak ⟨[], 0⟩ 7 (Except.ok []) 3 = 0 :=
  streak_empty_both_paths ⟨[], 0⟩ 7 3 rfl

/-! ### Calendar projection (src/app.py lines 65-107)

`get_calendar_data` builds one page per month from the epoch month
(August 2025) through today's month, latest first.  Today is passed as
its year `ty` and month `tm` (the code reads `date.today()`).  The week
grid (`calendar.monthcalendar`) is presentation-only and not involved in
any claim; each page keeps the fields the claims speak about: year,
month, and the `start_date`/`end_date` bounds as (year, month, day)
triples, with `monthrange` embedding `calendar.monthrange`'s day count
for the proleptic Gregorian calendar. -/

def START_YEAR : Nat := 2025

def START_MONTH : Nat := 8

/-- Gregorian leap-year rule used by Python's `calendar` module. -/
def isLeap (y : Nat) : Bool :=
  decide (y % 4 = 0 ∧ (y % 100 ≠ 0 ∨ y % 400 = 0))

/-- Number of days of a month, `calendar.monthrange(year, month)[1]`. -/
def monthrange (y m : Nat) : Nat :=
  if m = 2 then (if isLeap y then 29 else 28)
  else if m = 4 ∨ m = 6 ∨ m = 9 ∨ m = 11 then 30
  else 31

structure CalendarPage where
  year : Nat
  month : Nat
  start_date : Nat × Nat × Nat
  end_date : Nat × Nat × Nat
  deriving DecidableEq, Repr

/-- The `months_to_show` computation of src/app.py lines 79-84 (Python ints,
so computed in `Int`). -/
def months_to_show (ty tm : Nat) : Int :=
  if ty > START_YEAR then
    ((ty : Int) - (START_YEAR : Int)) * 12 + ((tm : Int) - (START_MONTH : Int)) + 1
  else
    (tm : Int) - (START_MONTH : Int) + 1

/-- Body of the month loop of src/app.py lines 90-105 at loop index `i`:
`year = start_year + (start_month + i - 1) // 12`,
`month = (start_month + i - 1) % 12 + 1`, and the page bounds. -/
def calendarPage (i : Nat) : CalendarPage :=
  let y := START_YEAR + (START_MONTH + i - 1) / 12
  let m := (START_MONTH + i - 1) % 12 + 1
  { year := y, month := m, start_date := (y, m, 1), end_date := (y, m, monthrange y m) }

/-- Function `get_calendar_data` (src/app.py lines 65-107): `max 1 months_to_show`
pages generated for `i = months_to_show - 1, ..., 0` (latest first). -/
def get_calendar_data (ty tm : Nat) : List CalendarPage :=
  (List.range ((max 1 (months_to_show ty tm)).toNat)).reverse.map calendarPage

/-- Non-strict order on (year, month) pairs. -/
def month_le (a b : Nat × Nat) : Prop :=
  a.1 < b.1 ∨ (a.1 = b.1 ∧ a.2 ≤ b.2)

/-- Strict order on (year, month) pairs. -/
def month_lt (a b : Nat × Nat) : Prop :=
  a.1 < b.1 ∨ (a.1 = b.1 ∧ a.2 < b.2)

theorem calendarPage_spec (i : Nat) :
    (calendarPage i).year * 12 + (calendarPage i).month = 2025 * 12 + 8 + i ∧
      1 ≤ (calendarPage i).month ∧ (calendarPage i).month ≤ 12 ∧
      (calendarPage i).start_date = ((calendarPage i).year, (calendarPage i).month, 1) ∧
      (calendarPage i).end_date =
        ((calendarPage i).year, (calendarPage i).month,
          monthrange (calendarPage i).year (calendarPage i).month) := by
  unfold calendarPage START_YEAR START_MONTH
  refine ⟨?_, ?_, ?_, rfl, rfl⟩ <;> dsimp only [] <;> omega

theorem get_calendar_data_eq (ty tm : Nat) (h2 : tm ≤ 12)
    (h3 : 2025 * 12 + 8 ≤ ty * 12 + tm) :
    get_calendar_data ty tm =
      (List.range (ty * 12 + tm - (2025 * 12 + 7))).reverse.map calendarPage := by
  have hm : months_to_show ty tm = (ty : Int) * 12 + (tm : Int) - (2025 * 12 + 7 : Int) := by
    unfold months_to_show START_YEAR START_MONTH
    split <;> push_cast <;> omega
  have hmts : (max 1 (months_to_show ty tm)).toNat = ty * 12 + tm - (2025 * 12 + 7) := by
    rw [hm, max_def]
    split <;> omega
  unfold get_calendar_data
  rw [hmts]

/-- C6: for every today (year `ty`, month `tm`) whose month is on or
after the epoch month, the calendar contains exactly one page per month
from the epoch's month (August 2025) up to and including today's month,
never a month outside that range, and each page is bounded to the
month's first and last day. -/
theorem calendar_month_range (ty tm : Nat) (h1 : 1 ≤ tm) (h2 : tm ≤ 12)
    (h3 : 2025 * 12 + 8 ≤ ty * 12 + tm) :
    (∀ p ∈ get_calendar_data ty tm,
        month_le (2025, 8) (p.year, p.month) ∧ month_le (p.year, p.month) (ty, tm) ∧
        p.start_date = (p.year, p.month, 1) ∧
        p.end_date = (p.year, p.month, monthrange p.year p.month)) ∧
    (∀ y m, 1 ≤ m → m ≤ 12 → month_le (2025, 8) (y, m) → month_le (y, m) (ty, tm) →
        ∃ p ∈ get_calendar_data ty tm, p.year = y ∧ p.month = m ∧
          ∀ q ∈ get_calendar_data ty tm, q.year = y → q.month = m → q = p) := by
  rw [get_calendar_data_eq ty tm h2 h3]
  constructor
  · intro p hp
    simp only [List.mem_map, List.mem_reverse, List.mem_range] at hp
    obtain ⟨i, hi, rfl⟩ := hp
    obtain ⟨hidx, hmo1, hmo2, hsd, hed⟩ := calendarPage_spec i
    exact ⟨by unfold month_le; dsimp only []; omega,
      by unfold month_le; dsimp only []; omega, hsd, hed⟩
  · intro y m hm1 hm2 hge hle
    unfold month_le at hge hle
    dsimp only [] at hge hle
    have hyi : 2025 * 12 + 8 ≤ y * 12 + m := by omega
    have hyt : y * 12 + m ≤ ty * 12 + tm := by omega
    refine ⟨calendarPage (y * 12 + m - (2025 * 12 + 8)), ?_, ?_, ?_, ?_⟩
    · simp only [List.mem_map, List.mem_reverse, List.mem_range]
      exact ⟨y * 12 + m - (2025 * 12 + 8), by omega, rfl⟩
    · obtain ⟨hidx, hmo1, hmo2, _, _⟩ := calendarPage_spec (y * 12 + m - (2025 * 12 + 8))
      omega
    · obtain ⟨hidx, hmo1, hmo2, _, _⟩ := calendarPage_spec (y * 12 + m - (2025 * 12 + 8))
      omega
    · intro q hq hqy hqm
      simp only [List.mem_map, List.mem_reverse, List.mem_range] at hq
      obtain ⟨j, hj, rfl⟩ := hq
      obtain ⟨hidxj, _, _, _, _⟩ := calendarPage_spec j
      have hji : j = y * 12 + m - (2025 * 12 + 8) := by omega
      rw [hji]

/-- C10: for every today on or after the epoch month, the calendar pages
are ordered newest-first: the page for today's month is first, the
epoch's month (August 2025) is last, and consecutive pages are strictly
descending by (year, month). -/
theorem calendar_newest_first (ty tm : Nat) (h1 : 1 ≤ tm) (h2 : tm ≤ 12)
    (h3 : 2025 * 12 + 8 ≤ ty * 12 + tm) :
    List.Chain' (fun a b => month_lt (b.year, b.month) (a.year, a.month))
        (get_calendar_data ty tm) ∧
      (get_calendar_data ty tm).head?.map (fun p => (p.year, p.month)) = some (ty, tm) ∧
      (get_calendar_data ty tm).getLast?.map (fun p => (p.year, p.month)) =
        some (2025, 8) := by
  rw [get_calendar_data_eq ty tm h2 h3]
  obtain ⟨K, hK⟩ : ∃ K, ty * 12 + tm - (2025 * 12 + 7) = K + 1 :=
    ⟨ty * 12 + tm - (2025 * 12 + 8), by omega⟩
  rw [hK]
  refine ⟨?_, ?_, ?_⟩
  · apply List.Pairwise.chain'
    rw [List.pairwise_map, List.pairwise_reverse]
    apply (List.pairwise_lt_range (K + 1)).imp
    intro i j hij
    obtain ⟨hidxi, hmi1, hmi2, _, _⟩ := calendarPage_spec i
    obtain ⟨hidxj, hmj1, hmj2, _, _⟩ := calendarPage_spec j
    unfold month_lt
    dsimp only []
    omega
  · have hsplit : (List.range (K + 1)).reverse.map calendarPage =
        calendarPage K :: (List.range K).reverse.map calendarPage := by
      rw [List.range_succ]
      simp
    rw [hsplit]
    simp only [List.head?_cons, Option.map_some']
    obtain ⟨hidx, hm1, hm2, _, _⟩ := calendarPage_spec K
    have hy : (calendarPage K).year = ty := by omega
    have hm : (calendarPage K).month = tm := by omega
    rw [hy, hm]
  · rw [List.map_reverse, List.getLast?_reverse]
    have hzero : List.range (K + 1) = 0 :: (List.range K).map Nat.succ :=
      List.range_succ_eq_map K
    rw [hzero]
    simp only [List.map_cons, List.head?_cons, Option.map_some']
    have hy : (calendarPage 0).year = 2025 := rfl
    have hm : (calendarPage 0).month = 8 := rfl
    rw [hy, hm]

theorem calendar_month_range_witness :
    (∀ p ∈ get_calendar_data 2025 9,
        month_le (2025, 8) (p.year, p.month) ∧ month_le (p.year, p.month) (2025, 9) ∧
        p.start_date = (p.year, p.month, 1) ∧
        p.end_date = (p.year, p.month, monthrange p.year p.month)) ∧
    (∀ y m, 1 ≤ m → m ≤ 12 → month_le (2025, 8) (y, m) → month_le (y, m) (2025, 9) →
        ∃ p ∈ get_calendar_data 2025 9, p.year = y ∧ p.month = m ∧
          ∀ q ∈ get_calendar_data 2025 9, q.year = y → q.month = m → q = p) :=
  calendar_month_range 2025 9 (by decide) (by decide) (by decide)

theorem calendar_newest_first_witness :
    List.Chain' (fun a b => month_lt (b.year, b.month) (a.year, a.month))
        (get_calendar_data 2026 1) ∧
      (get_calendar_data 2026 1).head?.map (fun p => (p.year, p.month)) = some (2026, 1) ∧
      (get_calendar_data 2026 1).getLast?.map (fun p => (p.year, p.month)) =
        some (2025, 8) :=
  calendar_newest_first 2026 1 (by decide) (by decide) (by decide)

/-! ### Day toggling (src/app.py lines 232-289)

`toggle_day` validates the date string, computes the next status from the
caller-supplied `current_status`, deletes or upserts the DynamoDB record,
and invalidates the snapshot cache.  The DynamoDB table is an association
list keyed by date string, holding the status string and the `updated_at`
timestamp written by `put_item`.

Date validation models `datetime.strptime(date_str, '%Y-%m-%d')`:
CPython's strptime matches `%Y` as exactly four digits, `%m` and `%d` as
one or two digits, and range-checks month 1-12, day against the month's
length, and year >= 1 (digits are modelled as ASCII digits). -/

/-- Split a character list at every dash, like Python str.split. -/
def splitOnDash : List Char → List (List Char)
  | [] => [[]]
  | c :: rest =>
    if c = '-' then [] :: splitOnDash rest
    else
      match splitOnDash rest with
      | [] => [[c]]
      | g :: gs => (c :: g) :: gs

/-- Numeric value of a digit string (`int` on a run of digits). -/
def digitsToNat (cs : List Char) : Nat :=
  cs.foldl (fun a c => a * 10 + (c.toNat - 48)) 0

/-- Model of `datetime.strptime(s, '%Y-%m-%d')` as a partial parse: `some (y, m, d)`
on success, `none` when strptime raises `ValueError`. -/
def parseDateYMD (s : String) : Option (Nat × Nat × Nat) :=
  match splitOnDash s.toList with
  | [ys, ms, ds] =>
    if ys.length = 4 ∧ (∀ c ∈ ys, c.isDigit = true) ∧
        1 ≤ ms.length ∧ ms.length ≤ 2 ∧ (∀ c ∈ ms, c.isDigit = true) ∧
        1 ≤ ds.length ∧ ds.length ≤ 2 ∧ (∀ c ∈ ds, c.isDigit = true) then
      let y := digitsToNat ys
      let m := digitsToNat ms
      let d := digitsToNat ds
      if 1 ≤ y ∧ 1 ≤ m ∧ m ≤ 12 ∧ 1 ≤ d ∧ d ≤ monthrange y m then
        some (y, m, d)
      else
        none
    else
      none
  | _ => none

/-- DynamoDB table contents: one record per date key holding the status
string and the `updated_at` timestamp. -/
abbrev Store : Type := List (String × String × Int)

/-- Key lookup in the table (status and updated_at of a date's record). -/
def lookupStore (store : Store) (d : String) : Option (String × Int) :=
  (List.find? (fun r => r.1 = d) store).map (fun r => r.2)

/-- DynamoDB `table.delete_item` keyed by the date: removes the record if
present, succeeds silently otherwise. -/
def delete_item (store : Store) (d : String) : Store :=
  store.filter (fun r => r.1 ≠ d)

/-- DynamoDB `table.put_item` with date, status and updated_at fields:
upserts the record keyed by the date. -/
def put_item (store : Store) (d status : String) (now : Int) : Store :=
  (d, status, now) :: store.filter (fun r => r.1 ≠ d)

/-- Next-status computation of src/app.py lines 254-261. -/
def nextStatusOf (current_status : String) : String :=
  if current_status = "unmarked" then "successful"
  else if current_status = "successful" then "unsuccessful"
  else if current_status = "unsuccessful" then "unmarked"
  else "successful"

structure ToggleReply where
  date : String
  status : String
  message : String
  deriving DecidableEq, Repr

inductive ToggleResult where
  | ok (reply : ToggleReply) (store : Store) (cache : CacheState)
  | err (msg : String) (code : Nat) (store : Store) (cache : CacheState)
  deriving DecidableEq, Repr

/-- Function `toggle_day` (src/app.py lines 232-289): reject a missing or
malformed date with HTTP 400 before touching the store; otherwise apply
the status transition, delete on a transition into unmarked and upsert
otherwise, then invalidate the snapshot cache. -/
def toggle_day (store : Store) (cache : CacheState) (now : Int)
    (date_str current_status : String) : ToggleResult :=
  if date_str = "" then
    ToggleResult.err "Date is required" 400 store cache
  else
    match parseDateYMD date_str with
    | none => ToggleResult.err "Invalid date format. Use YYYY-MM-DD" 400 store cache
    | some _ =>
      let next_status := nextStatusOf current_status
      let store' :=
        if next_status = "unmarked" then delete_item store date_str
        else put_item store date_str next_status now
      ToggleResult.ok
        ⟨date_str, next_status, "Day " ++ date_str ++ " set to " ++ next_status⟩
        store' invalidate_cache

theorem lookupStore_delete_self (store : Store) (d : String) :
    lookupStore (delete_item store d) d = none := by
  unfold lookupStore delete_item
  induction store with
  | nil => rfl
  | cons r rest ih =>
    by_cases hr : r.1 = d <;> simp [List.filter_cons, List.find?_cons, hr, ih]

theorem lookupStore_delete_other (store : Store) (d k : String) (h : k ≠ d) :
    lookupStore (delete_item store d) k = lookupStore store k := by
  unfold lookupStore delete_item
  induction store with
  | nil => rfl
  | cons r rest ih =>
    by_cases hr : r.1 = d
    · have hrk : ¬(r.1 = k) := fun hc => h (hc.symm.trans hr)
      rw [List.filter_cons_of_neg (by simp [hr]),
        List.find?_cons_of_neg _ (by simp [hrk])]
      exact ih
    · rw [List.filter_cons_of_pos (by simp [hr])]
      by_cases hrk : r.1 = k
      · rw [List.find?_cons_of_pos _ (by simp [hrk]),
          List.find?_cons_of_pos _ (by simp [hrk])]
      · rw [List.find?_cons_of_neg _ (by simp [hrk]),
          List.find?_cons_of_neg _ (by simp [hrk])]
        exact ih

theorem lookupStore_put_self (store : Store) (d v : String) (now : Int) :
    lookupStore (put_item store d v now) d = some (v, now) := by
  unfold lookupStore put_item
  simp [List.find?_cons]

theorem lookupStore_put_other (store : Store) (d v : String) (now : Int) (k : String)
    (h : k ≠ d) :
    lookupStore (put_item store d v now) k = lookupStore store k := by
  have h2 := lookupStore_delete_other store d k h
  unfold lookupStore delete_item at h2
  unfold lookupStore put_item
  have hdk : ¬((d, v, now).1 = k) := fun hc => h hc.symm
  simp only [List.find?_cons, hdk, decide_eq_true_eq, if_neg, decide_False]
  exact h2

/-- C5: for every valid date string and every caller-supplied
current_status, `toggle_day` follows the transition table
Unmarked→Successful, Successful→Unsuccessful, Unsuccessful→Unmarked,
anything else→Successful; a transition into unmarked deletes the day's
record (other keys untouched), a transition into
successful/unsuccessful upserts the record with the updated timestamp
(other keys untouched), and the snapshot cache is invalidated. -/
theorem toggle_day_spec (store : Store) (cache : CacheState) (now : Int)
    (d cs : String) (hd : d ≠ "") (hv : (parseDateYMD d).isSome) :
    ∃ reply store',
      toggle_day store cache now d cs = ToggleResult.ok reply store' invalidate_cache ∧
      reply.date = d ∧ reply.status = nextStatusOf cs ∧
      (nextStatusOf "unmarked" = "successful" ∧ nextStatusOf "successful" = "unsuccessful" ∧
        nextStatusOf "unsuccessful" = "unmarked" ∧
        ∀ s, s ≠ "unmarked" → s ≠ "successful" → s ≠ "unsuccessful" →
          nextStatusOf s = "successful") ∧
      (reply.status = "unmarked" →
        lookupStore store' d = none ∧
          ∀ k, k ≠ d → lookupStore store' k = lookupStore store k) ∧
      (reply.status ≠ "unmarked" →
        lookupStore store' d = some (reply.status, now) ∧
          ∀ k, k ≠ d → lookupStore store' k = lookupStore store k) := by
  obtain ⟨p, hp⟩ := Option.isSome_iff_exists.mp hv
  refine ⟨⟨d, nextStatusOf cs, "Day " ++ d ++ " set to " ++ nextStatusOf cs⟩,
    if nextStatusOf cs = "unmarked" then delete_item store d
      else put_item store d (nextStatusOf cs) now,
    ?_, rfl, rfl, ⟨by decide, by decide, by decide, ?_⟩, ?_, ?_⟩
  · unfold toggle_day
    rw [if_neg hd, hp]
  · intro s h1 h2 h3
    unfold nextStatusOf
    rw [if_neg h1, if_neg h2, if_neg h3]
  · intro hu
    dsimp only [] at hu
    rw [if_pos hu]
    exact ⟨lookupStore_delete_self store d,
      fun k hk => lookupStore_delete_other store d k hk⟩
  · intro hu
    dsimp only [] at hu
    rw [if_neg hu]
    exact ⟨lookupStore_put_self store d (nextStatusOf cs) now,
      fun k hk => lookupStore_put_other store d (nextStatusOf cs) now k hk⟩

theorem toggle_day_spec_witness :
    (("2025-08-26" : String) ≠ "" ∧ (parseDateYMD "2025-08-26").isSome = true) ∧
    (∃ reply store',
      toggle_day [("2025-08-20", "successful", 5)] ⟨[(0, DayStatus.successful)], 3⟩ 9
          "2025-08-26" "successful" = ToggleResult.ok reply store' invalidate_cache ∧
      reply.date = "2025-08-26" ∧ reply.status = nextStatusOf "successful" ∧
      (nextStatusOf "unmarked" = "successful" ∧ nextStatusOf "successful" = "unsuccessful" ∧
        nextStatusOf "unsuccessful" = "unmarked" ∧
        ∀ s, s ≠ "unmarked" → s ≠ "successful" → s ≠ "unsuccessful" →
          nextStatusOf s = "successful") ∧
      (reply.status = "unmarked" →
        lookupStore store' "2025-08-26" = none ∧
          ∀ k, k ≠ "2025-08-26" →
            lookupStore store' k = lookupStore [("2025-08-20", "successful", 5)] k) ∧
      (reply.status ≠ "unmarked" →
        lookupStore store' "2025-08-26" = some (reply.status, 9) ∧
          ∀ k, k ≠ "2025-08-26" →
            lookupStore store' k = lookupStore [("2025-08-20", "successful", 5)] k)) :=
  ⟨⟨by decide, by decide⟩,
    toggle_day_spec [("2025-08-20", "successful", 5)] ⟨[(0, DayStatus.successful)], 3⟩ 9
      "2025-08-26" "successful" (by decide) (by decide)⟩

/-- C8: a date string that does not parse as a valid YYYY-MM-DD calendar
date is rejected with a 400 validation error, and neither the store nor
the cache is touched (no deletion, no write, no invalidation). -/
theorem toggle_day_rejects_invalid (store : Store) (cache : CacheState) (now : Int)
    (d cs : String) (h : parseDateYMD d = none) :
    (d = "" → toggle_day store cache now d cs =
      ToggleResult.err "Date is required" 400 store cache) ∧
    (d ≠ "" → toggle_day store cache now d cs =
      ToggleResult.err "Invalid date format. Use YYYY-MM-DD" 400 store cache) := by
  constructor
  · intro hd
    unfold toggle_day
    rw [if_pos hd]
  · intro hd
    unfold toggle_day
    rw [if_neg hd, h]

theorem toggle_day_rejects_invalid_witness :
    toggle_day [("2025-08-20", "successful", 5)] ⟨[(0, DayStatus.successful)], 3⟩ 9
        "2024-13-05" "unmarked" =
      ToggleResult.err "Invalid date format. Use YYYY-MM-DD" 400
        [("2025-08-20", "successful", 5)] ⟨[(0, DayStatus.successful)], 3⟩ :=
  (toggle_day_rejects_invalid [("2025-08-20", "successful", 5)]
      ⟨[(0, DayStatus.successful)], 3⟩ 9 "2024-13-05" "unmarked" (by decide)).2 (by decide)

/-- Iterated toggling: each toggle is fed the status produced by the
previous one, starting from `cs`. -/
def toggleIter (now : Int) (d : String) :
    Nat → Store → CacheState → String → Store × CacheState × String
  | 0, store, cache, cs => (store, cache, cs)
  | k + 1, store, cache, cs =>
    match toggle_day store cache now d cs with
    | ToggleResult.ok reply store' cache' => toggleIter now d k store' cache' reply.status
    | ToggleResult.err _ _ store' cache' => (store', cache', cs)

/-- C9 counterexample: toggling a fresh date four times (statuses fed
forward from "unmarked") ends at "successful" with the record present,
not at "unmarked" with the record deleted: the toggle cycle has period
three. -/
theorem toggle_four_times_counterexample :
    (toggleIter 0 "2025-08-26" 4 [] ⟨[], 0⟩ "unmarked").2.2 = "successful" ∧
      ("successful" : String) ≠ "unmarked" ∧
      lookupStore (toggleIter 0 "2025-08-26" 4 [] ⟨[], 0⟩ "unmarked").1 "2025-08-26" =
        some ("successful", 0) := by
  decide

/-- C9 amended: toggling a date three times (each toggle fed the status
produced by the previous toggle, starting from Unmarked) returns it to
Unmarked and deletes its record; toggling twice from Unmarked yields
Unsuccessful. -/
theorem toggle_three_times_unmarks (store : Store) (cache : CacheState) (now : Int)
    (d : String) (hd : d ≠ "") (hv : (parseDateYMD d).isSome) :
    (toggleIter now d 3 store cache "unmarked").2.2 = "unmarked" ∧
      lookupStore (toggleIter now d 3 store cache "unmarked").1 d = none ∧
      (toggleIter now d 2 store cache "unmarked").2.2 = "unsuccessful" := by
  obtain ⟨p, hp⟩ := Option.isSome_iff_exists.mp hv
  have step : ∀ (st : Store) (c : CacheState) (cs : String),
      toggle_day st c now d cs = ToggleResult.ok
        ⟨d, nextStatusOf cs, "Day " ++ d ++ " set to " ++ nextStatusOf cs⟩
        (if nextStatusOf cs = "unmarked" then delete_item st d
          else put_item st d (nextStatusOf cs) now)
        invalidate_cache := by
    intro st c cs
    unfold toggle_day
    rw [if_neg hd, hp]
  have ha : nextStatusOf "unmarked" = "successful" := by decide
  have hb : nextStatusOf "successful" = "unsuccessful" := by decide
  have hc : nextStatusOf "unsuccessful" = "unmarked" := by decide
  unfold toggleIter
  rw [step]
  unfold toggleIter
  rw [step]
  unfold toggleIter
  rw [step]
  unfold toggleIter
  simp [ha, hb, hc, lookupStore_delete_self]

theorem toggle_three_times_unmarks_witness :
    (toggleIter 7 "2025-08-26" 3 [] ⟨[], 0⟩ "unmarked").2.2 = "unmarked" ∧
      lookupStore (toggleIter 7 "2025-08-26" 3 [] ⟨[], 0⟩ "unmarked").1 "2025-08-26" = none ∧
      (toggleIter 7 "2025-08-26" 2 [] ⟨[], 0⟩ "unmarked").2.2 = "unsuccessful" :=
  toggle_three_times_unmarks [] ⟨[], 0⟩ 7 "2025-08-26" (by decide) (by decide)

end Tracker
